import Mathlib

/-
Verification of the tick/frame engine of the astratheloria repository.

The definitions below are a shallow embedding of the TypeScript sources:
  - src/code/movement.ts : Vector3D / Orientation3D value math, MovementStep,
    the Movement class (constructor, currentStep, futureSteps, update).
  - src/entity.ts        : Entity (fragment bucket keyed by string, event
    queue, trigger table, sleep gate, update cycle).
  - src/engine.ts        : Engine (tick counters, fragment bucket, update).
  - src/loop.ts          : createLoop (one tick: engine update, entity
    updates, harvest, clear, commit) and turn (the cancellable iterator).

JS numbers are modelled as exact rationals (ℚ) and tick counters as
integers; JS Sets of freshly allocated objects are modelled as lists
together with an object-identity tag (`oid`) where reference identity
matters; JS Maps are modelled as insertion-ordered association lists.
Externally supplied behavior callbacks (per-tick Loop callbacks and
trigger listeners) are modelled as lists of effect commands: add a
fragment, add an event, or throw.  A thrown JS exception is modelled by
an `Option String` (the message) travelling with the object state at the
moment of the throw.
-/

/-- Contents of a `Vector3DArray` backing array: three JS numbers
(modelled as rationals).  Used both for positions (`Vector3D`) and for
orientations (`Orientation3D`), whose component math is identical. -/
structure Vec3 where
  x : ℚ
  y : ℚ
  z : ℚ
deriving DecidableEq, Inhabited

/-- Component-wise linear interpolation, from `Vector3D.prototype.interpolate`
(and the identical `Orientation3D.prototype.interpolate`):
`this + (other - this) * t` per component. -/
def Vec3.interpolate (a b : Vec3) (t : ℚ) : Vec3 :=
  ⟨a.x + (b.x - a.x) * t, a.y + (b.y - a.y) * t, a.z + (b.z - a.z) * t⟩

/-- Values carried by fragments: plain numbers or staged vectors. -/
inductive FragValue
  | num (n : Int)
  | vec (v : Vec3)
deriving DecidableEq

/-- A Fragment record from src/loop.ts: `{ frame, key?, value }`.
`oid` is the JS object identity of the record: `Set#add`/`Set#delete` on
`#fragments` compare by reference, and every fragment passed to
`addFragments` in the sources is a freshly allocated object literal. -/
structure Fragment where
  oid : Nat
  frame : Int
  key : Option String
  value : FragValue
deriving DecidableEq

/-- A MovementStep from src/code/movement.ts:
`{ startFrame, endFrame, from, to, orientation }`. -/
structure MovementStep where
  startFrame : Int
  endFrame : Int
  fromPos : Vec3
  toPos : Vec3
  orientation : Vec3
deriving DecidableEq, Inhabited

/-- Stable insertion of a step into a list sorted by `startFrame`. -/
def insertStep (s : MovementStep) : List MovementStep → List MovementStep
  | [] => [s]
  | t :: ts => if s.startFrame ≤ t.startFrame then s :: t :: ts else t :: insertStep s ts

/-- Stable sort by `startFrame`, modelling
`[...steps].sort((a, b) => a.startFrame - b.startFrame)` (JS `Array#sort`
is stable). -/
def sortSteps : List MovementStep → List MovementStep
  | [] => []
  | s :: ss => insertStep s (sortSteps ss)

/-- The Movement instance state established by the constructor:
the sorted steps, the derived `startFrame`/`endFrame`, and the
`AbortController` signal. -/
structure MovementState where
  steps : List MovementStep
  startFrame : Int
  endFrame : Int
  aborted : Bool
deriving DecidableEq

/-- The Movement constructor (src/code/movement.ts).  It rejects an empty
steps array, sorts a copy of the steps by `startFrame`, and then sets
`this.startFrame = sortedSteps[0].startFrame` but
`this.endFrame = steps[sortedSteps.length - 1].endFrame` — note that the
second line indexes the ORIGINAL `steps` array, not `sortedSteps`. -/
def Movement.make (steps : List MovementStep) : Except String MovementState :=
  if steps.isEmpty then Except.error "A movement must have at least one step."
  else
    let sorted := sortSteps steps
    Except.ok
      { steps := sorted
      , startFrame := (sorted.headD default).startFrame
      , endFrame := (steps.getD (sorted.length - 1) default).endFrame
      , aborted := false }

/-- `get currentStep()`: the first step with
`step.startFrame <= engine.time && step.endFrame >= engine.time`. -/
def MovementState.currentStep (m : MovementState) (time : Int) : Option MovementStep :=
  m.steps.find? (fun s => decide (s.startFrame ≤ time) && decide (s.endFrame ≥ time))

/-- `get futureSteps()`: the steps with `step.startFrame > engine.time`. -/
def MovementState.futureSteps (m : MovementState) (time : Int) : List MovementStep :=
  m.steps.filter (fun s => decide (s.startFrame > time))

/-- `get completed()`: `engine.time >= this.endFrame`. -/
def MovementState.completed (m : MovementState) (time : Int) : Bool :=
  decide (time ≥ m.endFrame)

/-- The `nextLocation` computation inside `Movement.update`
(src/code/movement.ts): `Vector3D.interpolate(currentLocation,
currentStep.to, engine.time / currentStep.endFrame)`.  The interpolation
starts from the entity's current location and the fraction divides the
absolute tick by the step's end frame. -/
def Movement.nextLocation (time : Int) (step : MovementStep) (currentLocation : Vec3) : Vec3 :=
  Vec3.interpolate currentLocation step.toPos ((time : ℚ) / (step.endFrame : ℚ))

/-- The `nextOrientation` computation inside `Movement.update`:
`Orientation3D.interpolate(currentOrientation, currentStep.orientation,
engine.time / currentStep.endFrame)`. -/
def Movement.nextOrientation (time : Int) (step : MovementStep) (currentOrientation : Vec3) : Vec3 :=
  Vec3.interpolate currentOrientation step.orientation ((time : ℚ) / (step.endFrame : ℚ))

/-- Clamp a rational into `[lo, hi]`. -/
def clampQ (q lo hi : ℚ) : ℚ := max lo (min q hi)

/-- Modelled from the spec: the start-relative interpolation fraction the
specification mandates for `Movement.update`,
`f = clamp((time − step.startTick) / (step.endTick − step.startTick), 0, 1)`.
This definition follows the spec's words (it is the comparison point for
the code's observed formula, which the spec flags as corrected). -/
def specStepFraction (time : Int) (step : MovementStep) : ℚ :=
  clampQ (((time : ℚ) - (step.startFrame : ℚ)) / ((step.endFrame : ℚ) - (step.startFrame : ℚ))) 0 1

/-- Modelled from the spec: the mandated interpolated position, the linear
interpolation between the step's `from` and `to` at `specStepFraction`. -/
def specStepLocation (time : Int) (step : MovementStep) : Vec3 :=
  Vec3.interpolate step.fromPos step.toPos (specStepFraction time step)

/-- A step spanning ticks 10..20 from the origin to (10,0,0). -/
def step10to20 : MovementStep :=
  ⟨10, 20, ⟨0, 0, 0⟩, ⟨10, 0, 0⟩, ⟨0, 0, 1⟩⟩

/-- C2: for a Movement.update at tick 15 on the step spanning ticks 10..20
from (0,0,0) to (10,0,0), with the entity at (0,0,0), the code computes the
fraction `engine.time / step.endFrame = 15/20` and stages the location
(15/2, 0, 0), whereas the mandated start-relative clamped formula gives
fraction 1/2 and location (5, 0, 0).  The code's interpolation therefore
differs from the one the claim states it uses. -/
theorem c2_fraction_formula_bug :
    Movement.nextLocation 15 step10to20 ⟨0, 0, 0⟩ = ⟨(15 : ℚ) / 2, 0, 0⟩ ∧
    specStepLocation 15 step10to20 = ⟨5, 0, 0⟩ ∧
    Movement.nextLocation 15 step10to20 ⟨0, 0, 0⟩ ≠ specStepLocation 15 step10to20 := by
  refine ⟨?_, ?_, ?_⟩ <;>
    simp only [Movement.nextLocation, specStepLocation, specStepFraction, clampQ,
      Vec3.interpolate, step10to20, Vec3.mk.injEq, ne_eq] <;>
    norm_num

/-- The spec's example step `{20, 30, ...}`. -/
def stepLate : MovementStep := ⟨20, 30, ⟨0, 0, 0⟩, ⟨1, 0, 0⟩, ⟨0, 0, 0⟩⟩

/-- The spec's example step `{0, 10, ...}`. -/
def stepEarly : MovementStep := ⟨0, 10, ⟨0, 0, 0⟩, ⟨0, 0, 0⟩, ⟨0, 0, 0⟩⟩

/-- C6: building a Movement from the unsorted steps `[{20,30},{0,10}]`
stores the steps sorted and gives `startFrame = 0` as claimed, and
`currentStep` at tick 25 is the `{20,30}` step, and zero steps are
rejected — but `endFrame` comes out as 10, not the claimed maximum 30,
because the constructor reads `steps[sortedSteps.length - 1].endFrame`
from the original unsorted array. -/
theorem c6_endFrame_from_unsorted_array :
    (Movement.make [stepLate, stepEarly]).toOption =
      some ⟨[stepEarly, stepLate], 0, 10, false⟩ ∧
    (10 : Int) ≠ 30 ∧
    MovementState.currentStep ⟨[stepEarly, stepLate], 0, 10, false⟩ 25 = some stepLate ∧
    (Movement.make []).toOption = none := by
  refine ⟨?_, ?_, ?_, ?_⟩ <;> decide

/-- Lookup in an insertion-ordered association list (JS `Map#get`). -/
def assocLookup {α : Type} (l : List (String × α)) (k : String) : Option α :=
  (l.find? (fun p => p.1 == k)).map (fun p => p.2)

/-- JS `Map#set`: overwrite in place if the key exists (keeping its
insertion position), else append. -/
def assocSet {α : Type} : List (String × α) → String → α → List (String × α)
  | [], k, v => [(k, v)]
  | (k', v') :: rest, k, v =>
    if k' == k then (k, v) :: rest else (k', v') :: assocSet rest k v

/-- JS `Map#delete` of a key. -/
def assocDel {α : Type} (l : List (String × α)) (k : String) : List (String × α) :=
  l.filter (fun p => !(p.1 == k))

/-- One effect command of an externally supplied per-tick Loop callback
`(entity, engine) -> void` (spec §6): it may stage Fragments, queue
Events, or throw. -/
inductive LoopAct
  | addFragment (f : Fragment)
  | addEvent (name : String)
  | throwErr (msg : String)
deriving DecidableEq

/-- One effect command of a trigger listener `(...args) -> void`:
it may stage Fragments or throw. -/
inductive FragAct
  | addFragment (f : Fragment)
  | throwErr (msg : String)
deriving DecidableEq

/-- The Movement fields the entity model needs (the steps with the derived
frames, and the abort signal); same shape as `MovementState`. -/
structure EntityState where
  id : String
  fragments : List Fragment
  byKey : List (String × Fragment)
  events : List (String × Nat)
  loops : List (List LoopAct)
  triggers : List (String × List (List FragAct))
  attributes : List (String × Int)
  location : Vec3
  orientation : Vec3
  movement : Option MovementState
deriving DecidableEq

/-- One iteration of the `for (const fragment of fragments)` loop in
`Entity.addFragments` (src/entity.ts):

  if (fragment.key && this.#fragmentsByKey.has(fragment.key)) {
    this.#fragments.delete(fragment);       // deletes the NEW fragment
  }
  this.#fragments.add(fragment);
  if (fragment.key) {
    this.#fragmentsByKey.set(fragment.key, fragment);
  }

Note that the `delete` call passes the incoming `fragment`, not the prior
fragment stored under the key. -/
def Entity.addFragment1 (e : EntityState) (f : Fragment) : EntityState :=
  let hasPrior : Bool :=
    match f.key with
    | some k => (assocLookup e.byKey k).isSome
    | none => false
  let e1 :=
    if hasPrior then
      { e with fragments := e.fragments.filter (fun g => g.oid != f.oid) }
    else e
  let e2 :=
    if e1.fragments.any (fun g => g.oid == f.oid) then e1
    else { e1 with fragments := e1.fragments ++ [f] }
  match f.key with
  | some k => { e2 with byKey := assocSet e2.byKey k f }
  | none => e2

/-- `Entity.addFragments(...fragments)`: process each fragment in order. -/
def Entity.addFragments : EntityState → List Fragment → EntityState
  | e, [] => e
  | e, f :: rest => Entity.addFragments (Entity.addFragment1 e f) rest

/-- `Entity.addEvent(name, ...args)`: create the per-name `Set` on first
use (appending the name to the map in insertion order), then add the
freshly allocated event object to it (modelled as a count). -/
def Entity.addEvent (e : EntityState) (name : String) : EntityState :=
  match assocLookup e.events name with
  | some n => { e with events := assocSet e.events name (n + 1) }
  | none => { e with events := e.events ++ [(name, 1)] }

/-- Run the body of one trigger listener; a `throwErr` command aborts the
listener and surfaces the exception. -/
def runActs : EntityState → List FragAct → EntityState × Option String
  | e, [] => (e, none)
  | e, FragAct.addFragment f :: rest => runActs (Entity.addFragments e [f]) rest
  | e, FragAct.throwErr m :: _ => (e, some m)

/-- The `for (const trigger of triggers) trigger(...args)` loop inside
`Entity.runTrigger` (src/entity.ts).  There is no try/catch around the
call, so an exception from a listener propagates immediately and the
remaining listeners are not reached. -/
def runListeners : EntityState → List (List FragAct) → EntityState × Option String
  | e, [] => (e, none)
  | e, l :: rest =>
    match runActs e l with
    | (e1, none) => runListeners e1 rest
    | (e1, some m) => (e1, some m)

/-- `Entity.runTrigger(trigger, ...args)`: look the name up in the
`#triggers` map and invoke every registered listener in order. -/
def Entity.runTrigger (e : EntityState) (name : String) : EntityState × Option String :=
  match assocLookup e.triggers name with
  | none => (e, none)
  | some ls => runListeners e ls

/-- The inner `for (const event of events) this.runTrigger(name, ...)`
loop of the event drain: one `runTrigger` call per queued event. -/
def runTriggerN (name : String) : EntityState → Nat → EntityState × Option String
  | e, 0 => (e, none)
  | e, n + 1 =>
    match Entity.runTrigger e name with
    | (e1, none) => runTriggerN name e1 n
    | (e1, some m) => (e1, some m)

/-- The `for (const [name, events] of this.#events)` drain loop of
`Entity.update`.  The queue is not cleared here (only the frame driver
clears it). -/
def Entity.drainEvents : EntityState → List (String × Nat) → EntityState × Option String
  | e, [] => (e, none)
  | e, (name, n) :: rest =>
    match runTriggerN name e n with
    | (e1, none) => Entity.drainEvents e1 rest
    | (e1, some m) => (e1, some m)

/-- Run one Loop callback's commands against the entity. -/
def runLoopActs : EntityState → List LoopAct → EntityState × Option String
  | e, [] => (e, none)
  | e, LoopAct.addFragment f :: rest => runLoopActs (Entity.addFragments e [f]) rest
  | e, LoopAct.addEvent n :: rest => runLoopActs (Entity.addEvent e n) rest
  | e, LoopAct.throwErr m :: _ => (e, some m)

/-- The `for (const loop of this.#loops) loop(this, this.engine)` step of
`Entity.update`; a throwing callback propagates out uncaught. -/
def runLoops : EntityState → List (List LoopAct) → EntityState × Option String
  | e, [] => (e, none)
  | e, l :: rest =>
    match runLoopActs e l with
    | (e1, none) => runLoops e1 rest
    | (e1, some m) => (e1, some m)

/-- The Engine instance state (src/engine.ts): the two tick counters and
the engine's own fragment bucket.  The entity registry lives in the
world state of the frame driver model. -/
structure EngineState where
  currentTime : Int
  previousTime : Int
  fragments : List Fragment
deriving DecidableEq

/-- `Engine.update(time)` (src/engine.ts): throw if the engine's own
fragment bucket is non-empty, otherwise set
`#previousTime = #currentTime; #currentTime = time`.  The pair carries
the object state as left behind by the call together with the thrown
message, if any. -/
def Engine.update (st : EngineState) (time : Int) : EngineState × Option String :=
  match st.fragments with
  | _ :: _ => (st, some "Engine must not have fragments.")
  | [] => ({ st with previousTime := st.currentTime, currentTime := time }, none)

/-- `Movement.update()` as invoked from `Entity.update` (src/code/movement.ts).
It throws on a completed or aborted movement, throws "not running" when no
step contains the current tick, and otherwise computes `nextLocation` /
`nextOrientation` and calls `this.entitiy.setLocation(nextLocation)` —
which in src/entity.ts reads the undefined identifier `vector`
(`value: vector.copy()`, the parameter is named `location`), so the call
raises a ReferenceError before any fragment is staged.  The Bool is the
`futureSteps.length === 0` completion result of the (unreachable)
successful exit. -/
def Movement.updateDrv (time : Int) (e : EntityState) (m : MovementState) :
    EntityState × Option String × Bool :=
  if m.completed time then (e, some "Movement is completed.", false)
  else if m.aborted then (e, some "Movement is aborted.", false)
  else
    match m.currentStep time with
    | none => (e, some "Movement is not running.", false)
    | some step =>
      let _nextLoc := Movement.nextLocation time step e.location
      let _nextOrient := Movement.nextOrientation time step e.orientation
      (e, some "ReferenceError: vector is not defined", false)

/-- The part of `Entity.update` after the precondition checks and the
sleep gate: movement advance (detach on completion), the Loop callbacks,
and the event drain. -/
def Entity.updateBody (eng : EngineState) (e : EntityState) : EntityState × Option String :=
  let afterMove : EntityState × Option String :=
    match e.movement with
    | none => (e, none)
    | some m =>
      match Movement.updateDrv eng.currentTime e m with
      | (e1, some msg, _) => (e1, some msg)
      | (e1, none, true) => ({ e1 with movement := none }, none)
      | (e1, none, false) => (e1, none)
  match afterMove with
  | (e1, some msg) => (e1, some msg)
  | (e1, none) =>
    match runLoops e1 e1.loops with
    | (e2, some msg) => (e2, some msg)
    | (e2, none) => Entity.drainEvents e2 e2.events

/-- `Entity.update()` (src/entity.ts): throw if the fragment bucket is
non-empty, then throw if the event queue is non-empty; then the sleep
gate (`if (engine.time < sleepUntil) return; sleepUntil = undefined`),
then movement advance, Loop callbacks and event drain. -/
def Entity.update (eng : EngineState) (e : EntityState) : EntityState × Option String :=
  if e.fragments.isEmpty = false then
    (e, some ("Entity " ++ e.id ++ " must not have fragments."))
  else if e.events.isEmpty = false then
    (e, some ("Entity " ++ e.id ++ " must not have events."))
  else
    match assocLookup e.attributes "sleepUntil" with
    | some s =>
      if eng.currentTime < s then (e, none)
      else Entity.updateBody eng { e with attributes := assocDel e.attributes "sleepUntil" }
    | none => Entity.updateBody eng e

/-- The registry view the frame driver works on: the engine plus the
entities handed to `createLoop`, in iteration order. -/
structure WorldState where
  engine : EngineState
  entities : List EntityState
deriving DecidableEq

/-- The `for (const entity of entities) entity.update()` stage of
`createLoop` (src/loop.ts): stop at the first throwing entity; entities
before it keep their updated state, entities after it are untouched. -/
def updateEntities (eng : EngineState) : List EntityState → List EntityState × Option String
  | [] => ([], none)
  | e :: rest =>
    match Entity.update eng e with
    | (e1, none) =>
      match updateEntities eng rest with
      | (rest1, err) => (e1 :: rest1, err)
    | (e1, some m) => (e1 :: rest, some m)

/-- The pipeline stage a `FrameError` is attributed to (its `specifier`
field): `"engine"`, `"entity"` or `"frame"`. -/
inductive StageSpec
  | engine
  | entity
  | frame
deriving DecidableEq

/-- A `FrameError` (an `AggregateError` subclass, src/loop.ts): the stage
specifier together with the original cause (`errors: [error]`). -/
structure FrameErrM where
  specifier : StageSpec
  cause : String
deriving DecidableEq

/-- The `LoopResult` emitted by a successful tick: `{ time, fragments }`
(the performance timestamps are not modelled). -/
structure LoopResultM where
  time : Int
  fragments : List Fragment
deriving DecidableEq

/-- One invocation of the function returned by `createLoop` (src/loop.ts):
1. `await engine.update(time)` — a failure becomes a FrameError tagged
   `"engine"`;
2. `entity.update()` for every entity — a failure becomes a FrameError
   tagged `"entity"`;
3. harvest `new Set([...engine.fragments, ...entities.flatMap(e => [...e.fragments])])`;
4. `engine.clearFragments()` and, for every entity,
   `entity.clearFragments() && entity.clearEvents()` — unconditionally;
5. `await frame(fragments)` — a failure becomes a FrameError tagged
   `"frame"` (code `E_FRAME`), after the buckets have been cleared;
6. return `{ time: engine.time, fragments }`.
The external commit callback is modelled by its only observable aspect
here: whether it resolves (`true`) or rejects. -/
def loopTick (frame : List Fragment → Bool) (w : WorldState) (time : Int) :
    WorldState × Except FrameErrM LoopResultM :=
  match Engine.update w.engine time with
  | (eng1, some m) => ({ w with engine := eng1 }, Except.error ⟨StageSpec.engine, m⟩)
  | (eng1, none) =>
    match updateEntities eng1 w.entities with
    | (ents1, some m) => (⟨eng1, ents1⟩, Except.error ⟨StageSpec.entity, m⟩)
    | (ents1, none) =>
      let fragments := eng1.fragments ++ ents1.flatMap (fun e => e.fragments)
      let eng2 := { eng1 with fragments := [] }
      let ents2 := ents1.map (fun e => { e with fragments := [], events := [] })
      if frame fragments then
        (⟨eng2, ents2⟩, Except.ok ⟨eng2.currentTime, fragments⟩)
      else
        (⟨eng2, ents2⟩, Except.error ⟨StageSpec.frame, "E_FRAME"⟩)

/-- What one `next()` call of the turn iterator produces: an exhausted
`{done: true}` result, a rejection (the loop's FrameError wrapped once
more in `new AggregateError([error], ...)` — modelled by the carried
FrameError), or a `{tick, fragments}` value. -/
inductive TurnOutcome
  | done
  | thrown (err : FrameErrM)
  | result (value : LoopResultM)
deriving DecidableEq

/-- The state captured by the iterator object `turn(...)` returns: the
world its closures see and the abort signal.  The object itself keeps no
own mutable fields — in particular no completion or failure flag. -/
structure TurnState where
  world : WorldState
  aborted : Bool
deriving DecidableEq

/-- One `next()` call of the iterator returned by `turn` (src/loop.ts):
if `signal.aborted`, return `{done: true}`; otherwise run
`await loop(engine.time)` — note the argument is the CURRENT `engine.time`
— and either re-throw the failure wrapped in an AggregateError or emit
`{done: false, value: {time: engine.time, fragments}}`. -/
def turnNext (frame : List Fragment → Bool) (ts : TurnState) : TurnState × TurnOutcome :=
  if ts.aborted then (ts, TurnOutcome.done)
  else
    match loopTick frame ts.world ts.world.engine.currentTime with
    | (w1, Except.error e) => (⟨w1, ts.aborted⟩, TurnOutcome.thrown e)
    | (w1, Except.ok r) =>
      (⟨w1, ts.aborted⟩, TurnOutcome.result ⟨w1.engine.currentTime, r.fragments⟩)

/-- A heap of `Vector3DArray` backing arrays, for the parts of the model
where JS reference aliasing is observable.  A `Vector3D` object holds a
reference into this heap (its `#vector` field). -/
structure Heap where
  cells : List Vec3
deriving DecidableEq

/-- Read the array a reference points to. -/
def Heap.read (h : Heap) (r : Nat) : Vec3 := h.cells.getD r ⟨0, 0, 0⟩

/-- Overwrite the array a reference points to. -/
def Heap.write (h : Heap) (r : Nat) (v : Vec3) : Heap := ⟨h.cells.set r v⟩

/-- A `Vector3D` object (src/code/movement.ts): a wrapper around a
reference to its `#vector` backing array. -/
structure Vector3D where
  ref : Nat
deriving DecidableEq

/-- `Vector3D.prototype.copy`: `return new Vector3D(this.#vector)` — the
constructor stores the passed array by reference, so the "copy" is a new
wrapper object around the SAME backing array. -/
def Vector3D.copy (v : Vector3D) : Vector3D := ⟨v.ref⟩

/-- The `x` setter of `Vector3D`: `this.#vector[0] = value`, writing
through the object's array reference. -/
def Vector3D.setX (h : Heap) (v : Vector3D) (q : ℚ) : Heap :=
  Heap.write h v.ref { Heap.read h v.ref with x := q }

/-- An Entity as the reference-level model sees it: its `#location` field
is a `Vector3D` object, identified here by that object's array reference. -/
structure EntityRef where
  locRef : Nat
deriving DecidableEq

/-- The `get location()` accessor of Entity (src/entity.ts):
`return this.#location.copy()`. -/
def Entity.locationGet (ent : EntityRef) : Vector3D :=
  Vector3D.copy ⟨ent.locRef⟩

/-- The entity's stored location: the contents of its `#location` object's
backing array. -/
def Entity.storedLocation (h : Heap) (ent : EntityRef) : Vec3 :=
  Heap.read h ent.locRef

/-- A trigger listener as the dispatch-round model sees it: its JS object
identity and the set of listener identities its callback removes via the
removal handles (`() => triggers.delete(listener)`) it has captured. -/
structure DListener where
  id : Nat
  removes : List Nat
deriving DecidableEq

/-- The observable state of one dispatch round: which listener identities
are currently members of the `Set<TriggerListener>`, and the invocation
log in order. -/
structure DState where
  active : List Nat
  log : List Nat
deriving DecidableEq

/-- Invoke one listener: its callback runs the captured removal handles
(deleting those ids from the set) and the invocation is logged. -/
def runDListener (l : DListener) (st : DState) : DState :=
  ⟨st.active.filter (fun a => decide (a ∉ l.removes)), st.log ++ [l.id]⟩

/-- The `for (const trigger of triggers) trigger(...args)` loop of
`Entity.runTrigger` over a live JS `Set`, for delete-only mutation: the
iterator walks the insertion-ordered entries and skips every entry that
has been deleted from the set before being reached (ECMA-262 Set
iterator semantics).  The input list is the insertion order of the set
at the start of the round; `st.active` initially lists all of them. -/
def dispatchRound : List DListener → DState → DState
  | [], st => st
  | l :: rest, st =>
    if l.id ∈ st.active then
      dispatchRound rest (runDListener l st)
    else
      dispatchRound rest st

/-- An entity in its freshly-constructed state: empty fragment bucket and
key map, empty event queue, no callbacks, no movement. -/
def entityEmpty : EntityState :=
  { id := "e1", fragments := [], byKey := [], events := [], loops := []
  , triggers := [], attributes := [], location := ⟨0, 0, 0⟩
  , orientation := ⟨0, 0, 0⟩, movement := none }

/-- First keyed fragment: key "k", value 1 (a fresh object). -/
def fragK1 : Fragment := ⟨0, 0, some "k", FragValue.num 1⟩

/-- Second keyed fragment: key "k", value 2 (another fresh object). -/
def fragK2 : Fragment := ⟨1, 0, some "k", FragValue.num 2⟩

/-- C1: adding two fragments carrying the same key "k" within one tick
leaves BOTH fragments in the bucket — `addFragments` calls
`this.#fragments.delete(fragment)` on the incoming fragment, which is not
yet in the set, instead of deleting the prior fragment stored under the
key, so the earlier pending fragment is never removed and two fragments
with key "k" remain before harvest. -/
theorem c1_dedup_keeps_both :
    (Entity.addFragments entityEmpty [fragK1, fragK2]).fragments = [fragK1, fragK2] ∧
    ((Entity.addFragments entityEmpty [fragK1, fragK2]).fragments.filter
      (fun g => g.key == some "k")).length = 2 := by
  decide

/-- The world the spec's C4 property starts from: a fresh engine
(`time = 0`, `previousTime = 0`, empty bucket) and no entities. -/
def worldFresh : WorldState := ⟨⟨0, 0, []⟩, []⟩

/-- The turn iterator over the fresh world, not cancelled. -/
def turnFresh : TurnState := ⟨worldFresh, false⟩

/-- C4: one turn iteration on a fresh engine with a succeeding commit
callback completes successfully (emits a `{tick, fragments}` result), yet
`engine.time` is still 0 afterwards — `turn` passes the unchanged
`engine.time` into `Engine.update(time)`, which assigns
`#currentTime = time`, so time never advances and in particular does not
increase by 1. -/
theorem c4_time_never_advances :
    (turnNext (fun _ => true) turnFresh).2 = TurnOutcome.result ⟨0, []⟩ ∧
    (turnNext (fun _ => true) turnFresh).1.world.engine.currentTime = 0 ∧
    (turnNext (fun _ => true) turnFresh).1.world.engine.currentTime ≠ 1 := by
  decide

/-- A heap with one backing array (1,2,3): the entity's stored location. -/
def heap9 : Heap := ⟨[⟨1, 2, 3⟩]⟩

/-- The entity whose `#location` object wraps that array. -/
def ent9 : EntityRef := ⟨0⟩

/-- C9: reading `entity.location` returns `this.#location.copy()`, but
`Vector3D.copy` is `new Vector3D(this.#vector)` — a new wrapper around
the SAME backing array.  Writing `x = 99` on the value returned by the
getter therefore changes the entity's stored location from (1,2,3) to
(99,2,3): the read is not a copy and mutation of the returned value is
visible in entity state. -/
theorem c9_location_read_aliases_state :
    Entity.storedLocation heap9 ent9 = ⟨1, 2, 3⟩ ∧
    Entity.storedLocation (Vector3D.setX heap9 (Entity.locationGet ent9) 99) ent9
      = ⟨99, 2, 3⟩ ∧
    (⟨99, 2, 3⟩ : Vec3) ≠ (⟨1, 2, 3⟩ : Vec3) := by
  decide

/-- C10 counterexample: listeners A (id 0) and B (id 1) are registered
for the round; A's callback removes B by its removal handle.  The round
in progress invokes only A — B, although registered when the round
started, is skipped because the live `Set` iterator no longer yields it.
The claim that the set of listeners invoked in the round already in
progress is unchanged by mid-dispatch removal is therefore false. -/
theorem c10_removal_affects_current_round_counterexample :
    (dispatchRound [⟨0, [1]⟩, ⟨1, []⟩] ⟨[0, 1], []⟩).log = [0] ∧
    1 ∉ (dispatchRound [⟨0, [1]⟩, ⟨1, []⟩] ⟨[0, 1], []⟩).log ∧
    (dispatchRound [⟨0, [1]⟩, ⟨1, []⟩] ⟨[0, 1], []⟩).log ≠ [0, 1] := by
  decide

/-- An entity whose single Loop behavior callback throws "boom". -/
def entityThrower : EntityState :=
  { entityEmpty with id := "t", loops := [[LoopAct.throwErr "boom"]] }

/-- A turn over a fresh engine and the throwing entity, not cancelled. -/
def turnThrower : TurnState := ⟨⟨⟨0, 0, []⟩, [entityThrower]⟩, false⟩

/-- C5 counterexample: when the entity's behavior callback throws, the
turn's `next()` rejects with the staged error tagged `"entity"` carrying
the cause and emits no result — but the iterator object keeps no failure
state, so a second `next()` on the very same iterator is NOT an
exhausted/done result: it runs a further tick (and fails the same way).
The claim that the turn sequence is exhausted after the failure is
therefore false. -/
theorem c5_not_exhausted_counterexample :
    (turnNext (fun _ => true) turnThrower).2
      = TurnOutcome.thrown ⟨StageSpec.entity, "boom"⟩ ∧
    (turnNext (fun _ => true) ((turnNext (fun _ => true) turnThrower).1)).2
      ≠ TurnOutcome.done ∧
    (turnNext (fun _ => true) ((turnNext (fun _ => true) turnThrower).1)).2
      = TurnOutcome.thrown ⟨StageSpec.entity, "boom"⟩ := by
  decide

/-- A fragment a sibling listener would stage if it were invoked. -/
def fragSibling : Fragment := ⟨7, 0, none, FragValue.num 7⟩

/-- An entity with two listeners registered for "hit": the first throws,
the second stages `fragSibling`. -/
def entityBadListener : EntityState :=
  { entityEmpty with
    id := "l",
    triggers := [("hit", [[FragAct.throwErr "listener boom"],
      [FragAct.addFragment fragSibling]])] }

/-- C7 counterexample: `runTrigger` has no try/catch around the listener
calls, so the first listener's exception propagates out of `runTrigger`
(it is not caught), and the second listener is never invoked — its
fragment is absent from the bucket.  Both halves of the claim (caught,
siblings still invoked) are false on this input. -/
theorem c7_listener_error_propagates_counterexample :
    (Entity.runTrigger entityBadListener "hit").2 = some "listener boom" ∧
    fragSibling ∉ (Entity.runTrigger entityBadListener "hit").1.fragments := by
  decide

/-- C3: in every tick that reaches the harvest step (the engine update
and all entity updates succeed), the world state left behind by the
iteration has an empty engine fragment bucket and an empty fragment
bucket and event queue on every entity — for EVERY commit callback,
succeeding or failing, because the clearing happens before `frame` is
invoked and a rejection of `frame` does not restore the buckets. -/
theorem c3_cleared_before_commit
    (frame : List Fragment → Bool) (w : WorldState) (t : Int)
    (eng1 : EngineState) (ents1 : List EntityState)
    (hEng : Engine.update w.engine t = (eng1, none))
    (hEnts : updateEntities eng1 w.entities = (ents1, none)) :
    (loopTick frame w t).1.engine.fragments = [] ∧
    ∀ e ∈ (loopTick frame w t).1.entities, e.fragments = [] ∧ e.events = [] := by
  have hgoal : (loopTick frame w t).1 =
      ⟨{ eng1 with fragments := [] },
        ents1.map (fun e => { e with fragments := [], events := [] })⟩ := by
    simp only [loopTick, hEng, hEnts]
    by_cases hf : frame (eng1.fragments ++ ents1.flatMap (fun e => e.fragments)) <;>
      simp [hf]
  rw [hgoal]
  refine ⟨rfl, ?_⟩
  intro e he
  simp only [List.mem_map] at he
  obtain ⟨x, _, rfl⟩ := he
  exact ⟨rfl, rfl⟩

/-- A fragment staged by the witness entity's behavior callback. -/
def fragHarvest : Fragment := ⟨3, 1, none, FragValue.num 5⟩

/-- An entity whose behavior callback stages `fragHarvest`. -/
def entityStager : EntityState :=
  { entityEmpty with id := "s", loops := [[LoopAct.addFragment fragHarvest]] }

/-- A fresh engine together with the staging entity. -/
def worldStager : WorldState := ⟨⟨0, 0, []⟩, [entityStager]⟩

/-- C3 witness: on a concrete world whose entity stages a fragment, with
a commit callback that REJECTS, the post-iteration buckets and event
queues are still empty. -/
theorem c3_cleared_before_commit_witness :
    (loopTick (fun _ => false) worldStager 1).1.engine.fragments = [] ∧
    ∀ e ∈ (loopTick (fun _ => false) worldStager 1).1.entities,
      e.fragments = [] ∧ e.events = [] :=
  c3_cleared_before_commit (fun _ => false) worldStager 1 ⟨1, 0, []⟩
    [{ entityStager with fragments := [fragHarvest] }] (by decide) (by decide)

/-- C8: `Engine.update` with a non-empty engine fragment bucket throws
its invariant violation and leaves the engine state unchanged, and
`Entity.update` with a non-empty fragment bucket or event queue throws
and leaves the entity state unchanged (both checks precede every
mutation). -/
theorem c8_update_precondition_failures
    (eng : EngineState) (t : Int) (engAt : EngineState) (e : EntityState) :
    (eng.fragments ≠ [] →
      Engine.update eng t = (eng, some "Engine must not have fragments.")) ∧
    ((e.fragments ≠ [] ∨ e.events ≠ []) →
      (Entity.update engAt e).1 = e ∧ (Entity.update engAt e).2.isSome = true) := by
  constructor
  · intro h
    cases hf : eng.fragments with
    | nil => exact absurd hf h
    | cons a l => simp [Engine.update, hf]
  · intro h
    by_cases hfe : e.fragments.isEmpty = false
    · simp [Entity.update, hfe]
    · have hfrag : e.fragments = [] := by
        cases hx : e.fragments with
        | nil => rfl
        | cons a l => rw [hx] at hfe; exact absurd rfl hfe
      have hev : e.events ≠ [] := by
        rcases h with h | h
        · exact absurd hfrag h
        · exact h
      have hev' : e.events.isEmpty = false := by
        cases hx : e.events with
        | nil => exact absurd hx hev
        | cons a l => rfl
      simp [Entity.update, hfrag, hev']

/-- A fragment left un-harvested in a bucket at update entry. -/
def fragStale : Fragment := ⟨9, 0, none, FragValue.num 0⟩

/-- An engine whose own bucket still holds a fragment. -/
def engineDirty : EngineState := ⟨4, 3, [fragStale]⟩

/-- An entity whose bucket still holds a fragment at update entry. -/
def entityDirty : EntityState :=
  { entityEmpty with id := "d", fragments := [fragStale] }

/-- C8 witness: the precondition failures at concrete dirty states. -/
theorem c8_update_precondition_failures_witness :
    Engine.update engineDirty 5 = (engineDirty, some "Engine must not have fragments.") ∧
    ((Entity.update ⟨0, 0, []⟩ entityDirty).1 = entityDirty ∧
      (Entity.update ⟨0, 0, []⟩ entityDirty).2.isSome = true) :=
  ⟨(c8_update_precondition_failures engineDirty 5 ⟨0, 0, []⟩ entityDirty).1 (by decide),
   (c8_update_precondition_failures engineDirty 5 ⟨0, 0, []⟩ entityDirty).2
     (Or.inl (by decide))⟩

/-- C5 (amended): a turn iteration in which an entity's behavior callback
throws rejects with the staged error tagged `"entity"` carrying the
original cause, and emits no `{tick, fragments}` result for that
iteration; but the iterator retains no failure state, so the sequence is
NOT exhausted: any later `next()` call on a non-aborted iterator state
does further tick work rather than returning a done result — only the
cancellation signal exhausts the sequence. -/
theorem c5_entity_error_staged_not_exhausted
    (frame : List Fragment → Bool) (ts : TurnState)
    (eng1 : EngineState) (ents1 : List EntityState) (m : String)
    (hAb : ts.aborted = false)
    (hEng : Engine.update ts.world.engine ts.world.engine.currentTime = (eng1, none))
    (hEnts : updateEntities eng1 ts.world.entities = (ents1, some m)) :
    (turnNext frame ts).2 = TurnOutcome.thrown ⟨StageSpec.entity, m⟩ ∧
    (turnNext frame ts).1.aborted = false ∧
    (∀ ts2 : TurnState, ts2.aborted = false →
      (turnNext frame ts2).2 ≠ TurnOutcome.done) := by
  refine ⟨?_, ?_, ?_⟩
  · simp [turnNext, hAb, loopTick, hEng, hEnts]
  · simp [turnNext, hAb, loopTick, hEng, hEnts]
  · intro ts2 h2
    simp only [turnNext, h2, Bool.false_eq_true, if_false]
    rcases hlt : loopTick frame ts2.world ts2.world.engine.currentTime with ⟨w1, r⟩
    cases r <;> simp

/-- C5 amended witness: the concrete throwing-entity turn, with the
non-exhaustion conjunct instantiated at the same iterator state. -/
theorem c5_entity_error_staged_not_exhausted_witness :
    (turnNext (fun _ => true) turnThrower).2
      = TurnOutcome.thrown ⟨StageSpec.entity, "boom"⟩ ∧
    (turnNext (fun _ => true) turnThrower).1.aborted = false ∧
    (turnNext (fun _ => true) turnThrower).2 ≠ TurnOutcome.done := by
  have h := c5_entity_error_staged_not_exhausted (fun _ => true) turnThrower
    ⟨0, 0, []⟩ [entityThrower] "boom" rfl (by decide) (by decide)
  exact ⟨h.1, h.2.1, h.2.2 turnThrower rfl⟩

/-- Helper: appending a throwing listener after an error-free prefix of
listeners makes the uncaught exception surface from the dispatch loop,
with the listeners after the throwing one never executed (the resulting
state is exactly the state after the prefix). -/
theorem runListeners_append_throw
    (pre : List (List FragAct)) (e : EntityState) (m : String)
    (acts : List FragAct) (post : List (List FragAct))
    (h : (runListeners e pre).2 = none) :
    runListeners e (pre ++ (FragAct.throwErr m :: acts) :: post)
      = ((runListeners e pre).1, some m) := by
  induction pre generalizing e with
  | nil => simp [runListeners, runActs]
  | cons l rest ih =>
    rcases hl : runActs e l with ⟨e1, err⟩
    cases err with
    | none =>
      have h' : (runListeners e1 rest).2 = none := by
        have := h
        simp only [runListeners, hl] at this
        exact this
      simp only [List.cons_append, runListeners, hl]
      exact ih e1 h'
    | some m2 =>
      exfalso
      have : (runListeners e (l :: rest)).2 = some m2 := by
        simp [runListeners, hl]
      rw [h] at this
      exact Option.noConfusion this

/-- C7 (amended): in a `runTrigger` dispatch, a throwing listener's
exception propagates out of `Entity.runTrigger` uncaught, and the
listeners registered after it for that event are not invoked — the
entity is left exactly in the state produced by the listeners that ran
before the throwing one. -/
theorem c7_listener_error_propagates
    (e : EntityState) (name : String) (pre : List (List FragAct)) (m : String)
    (acts : List FragAct) (post : List (List FragAct))
    (hLook : assocLookup e.triggers name
      = some (pre ++ (FragAct.throwErr m :: acts) :: post))
    (hPre : (runListeners e pre).2 = none) :
    Entity.runTrigger e name = ((runListeners e pre).1, some m) := by
  unfold Entity.runTrigger
  rw [hLook]
  exact runListeners_append_throw pre e m acts post hPre

/-- C7 amended witness: the concrete two-listener entity — the throwing
first listener surfaces its error and the staging second listener never
runs. -/
theorem c7_listener_error_propagates_witness :
    Entity.runTrigger entityBadListener "hit"
      = ((runListeners entityBadListener []).1, some "listener boom") :=
  c7_listener_error_propagates entityBadListener "hit" [] "listener boom" []
    [[FragAct.addFragment fragSibling]] (by decide) (by decide)

/-- C10 (amended): removal by handle takes effect immediately, even for
the dispatch round in progress: a listener that is no longer a member of
the trigger set (and has not already been invoked) is never invoked
later in the round, while the invocations already made are preserved
(the prior log is a prefix of the final log). -/
theorem c10_removed_listener_skipped
    (ls : List DListener) (st : DState) (a : Nat)
    (hActive : a ∉ st.active) (hLog : a ∉ st.log) :
    a ∉ (dispatchRound ls st).log ∧ st.log <+: (dispatchRound ls st).log := by
  induction ls generalizing st with
  | nil =>
    simp only [dispatchRound]
    exact ⟨hLog, List.prefix_refl _⟩
  | cons l rest ih =>
    by_cases h : l.id ∈ st.active
    · simp only [dispatchRound, if_pos h]
      have hA1 : a ∉ (runDListener l st).active := by
        simp only [runDListener]
        intro hmem
        exact hActive (List.mem_filter.mp hmem).1
      have hL1 : a ∉ (runDListener l st).log := by
        simp only [runDListener, List.mem_append, List.mem_singleton]
        rintro (hmem | rfl)
        · exact hLog hmem
        · exact hActive h
      have hrec := ih (runDListener l st) hA1 hL1
      refine ⟨hrec.1, ?_⟩
      have hstep : st.log <+: (runDListener l st).log := by
        simp only [runDListener]
        exact List.prefix_append _ _
      exact hstep.trans hrec.2
    · simp only [dispatchRound, if_neg h]
      exact ih st hActive hLog

/-- C10 amended witness: a removed identity (5, never in the set) is not
invoked by a concrete round, and the prior log is preserved. -/
theorem c10_removed_listener_skipped_witness :
    5 ∉ (dispatchRound [⟨0, []⟩] ⟨[0], []⟩).log ∧
    ([] : List Nat) <+: (dispatchRound [⟨0, []⟩] ⟨[0], []⟩).log :=
  c10_removed_listener_skipped [⟨0, []⟩] ⟨[0], []⟩ 5 (by decide) (by decide)
